import Mathlib

/-!
Shallow embedding of the pgpbackend order-management server
(src/server.js plus its database schema module, which defines the
Sequelize models Users, Orders and OrderItems and is required by
server.js as ./db).

Modelling conventions:
* The relational store is a record of lists of rows plus the
  auto-increment counters for the two primary keys that matter here
  (Orders.billno and OrderItems.id).
* The schema module declares, per model, exactly these columns
  (associations add UserId to Orders and OrderBillno to OrderItems,
  since the target primary keys are Users.id and Orders.billno):
    Users:      id, username, phone, password
    Orders:     billno, date
    OrderItems: id, category, color, quantity
  Note that the Orders model declares NO status column and the Users
  model declares NO authority column, although server.js reads and
  writes order.status and user.authority.  Sequelize silently drops
  attributes that are not declared on the model when building a row
  (so Users.create with authority, and the default status of an
  Order, store nothing), assignment of an undeclared attribute on an
  instance is a plain object property that save() does not persist,
  and a where-clause naming an undeclared column produces SQL that
  the database rejects.  We model rows with an Option field for each
  such phantom attribute and derive its value from membership of the
  column name in the declared attribute list, so the dropping is
  computed rather than assumed.
* JSON timestamps are epoch milliseconds (Int).  A calendar date is
  a day index d; its UTC day starts at d * 86400000 ms and ends at
  that plus 86399999 ms, matching new Date with T00:00:00.000Z and
  T23:59:59.999Z suffixes in server.js.
* A request body field that may be absent is an Option; for item
  fields the JavaScript truthiness test (!item.category etc.) is
  falsyField below, with a numeric quantity represented by its
  decimal string (parseInt stringifies its argument anyway; the only
  divergence, the number 0 versus the string "0", fails validation
  on both paths).
* The order-creation transaction (sequelize.transaction, commit,
  rollback in server.js) is modelled by returning the untouched
  store on every error path and the fully updated store on commit.
* Persistence failure of the bulk insert or commit is an explicit
  dbOk flag.
-/

deriving instance DecidableEq for Except

namespace Pgp

/-- Columns declared on the Users model in the schema module, plus
nothing else: in particular no authority column, although server.js
creates users with authority USER and checks user.authority. -/
def usersAttributes : List String :=
  ["id", "username", "phone", "password"]

/-- Columns declared on the Orders model plus the UserId foreign key
added by the Users-Orders association: in particular no status
column, although server.js filters on status and assigns
order.status before save(). -/
def ordersAttributes : List String :=
  ["billno", "date", "UserId"]

/-- Columns declared on the OrderItems model plus the OrderBillno
foreign key added by the Orders-OrderItems association (the target
primary key is billno). -/
def orderItemsAttributes : List String :=
  ["id", "category", "color", "quantity", "OrderBillno"]

/-- A row of the Users table.  The authority field models the
phantom attribute server.js uses: Users.create stores it only if the
column is declared, which it is not, so stored rows carry none. -/
structure User where
  id : Nat
  username : String
  phone : String
  password : String
  authority : Option String
deriving Repr, DecidableEq

/-- A row of the Orders table.  The status field models the phantom
delivery-status attribute: it is populated only if a status column
is declared on the model, which it is not. -/
structure Order where
  billno : Nat
  date : Int
  userId : Nat
  status : Option Bool
deriving Repr, DecidableEq

/-- A row of the OrderItems table. -/
structure OrderItem where
  id : Nat
  category : String
  color : String
  quantity : Int
  orderBillno : Nat
deriving Repr, DecidableEq

/-- The relational store: rows of the three tables plus the
auto-increment counters used by order creation. -/
structure Store where
  users : List User
  orders : List Order
  items : List OrderItem
  nextBillno : Nat
  nextItemId : Nat
deriving Repr, DecidableEq

/-- Users.create as invoked by the signup route: the authority USER
attribute is kept only when the column is declared on the model. -/
def usersCreateRow (id : Nat) (username phone password : String) : User :=
  { id := id, username := username, phone := phone, password := password,
    authority := if "authority" ∈ usersAttributes then some "USER" else none }

/-! ## JavaScript parseInt with radix 10 -/

/-- Leading decimal-digit span of a character list, as parseInt
consumes it: stops at the first non-digit. -/
def takeDigits : List Char → List Char
  | [] => []
  | c :: cs => if c.isDigit then c :: takeDigits cs else []

/-- Value of a digit string read left to right. -/
def digitsValAux (acc : Nat) : List Char → Nat
  | [] => acc
  | c :: cs => digitsValAux (acc * 10 + (c.toNat - 48)) cs

/-- parseInt(s, 10): skip leading spaces, read an optional sign and
then the longest digit span; none models NaN (no digit found).
Note parseInt("2.9", 10) stops at the dot and yields 2. -/
def jsParseInt (s : String) : Option Int :=
  let cs := s.data.dropWhile (fun c => c == ' ')
  match cs with
  | '-' :: rest =>
      match takeDigits rest with
      | [] => none
      | ds => some (-(digitsValAux 0 ds : Int))
  | '+' :: rest =>
      match takeDigits rest with
      | [] => none
      | ds => some (digitsValAux 0 ds : Int)
  | other =>
      match takeDigits other with
      | [] => none
      | ds => some (digitsValAux 0 ds : Int)

/-! ## Order creation (POST /api/orders) -/

/-- One element of the request items array; each field may be
absent. -/
structure ItemInput where
  category : Option String
  color : Option String
  quantity : Option String
deriving Repr, DecidableEq

/-- JavaScript truthiness test used by the per-item guard
(!item.category and so on): absent or empty-string fields are
falsy. -/
def falsyField : Option String → Bool
  | none => true
  | some s => s == ""

/-- Validated data for one OrderItem row before ids are assigned by
the bulk insert. -/
structure NewItemData where
  category : String
  color : String
  quantity : Int
deriving Repr, DecidableEq

/-- The items.map callback of the createOrder route: throws (error)
if category, color or quantity is falsy, or if parseInt of the
quantity is NaN or non-positive; otherwise yields the row data with
the parsed quantity. -/
def validateItem (it : ItemInput) : Except String NewItemData :=
  if falsyField it.category || falsyField it.color || falsyField it.quantity then
    .error "Each item must include category, color, and quantity."
  else
    match jsParseInt (it.quantity.getD "") with
    | none => .error "Quantity must be a positive number."
    | some q =>
        if q ≤ 0 then .error "Quantity must be a positive number."
        else .ok { category := it.category.getD "", color := it.color.getD "",
                   quantity := q }

/-- items.map over the whole array: the first throw aborts the whole
mapping, as in JavaScript. -/
def validateItems : List ItemInput → Except String (List NewItemData)
  | [] => .ok []
  | it :: rest =>
      match validateItem it with
      | .error e => .error e
      | .ok d =>
          match validateItems rest with
          | .error e => .error e
          | .ok ds => .ok (d :: ds)

/-- The items field of the request body: absent (or otherwise falsy),
present but not an array, or an array. -/
inductive ItemsField where
  | absent
  | nonArray
  | arr (l : List ItemInput)
deriving Repr, DecidableEq

/-- The initial guard of the createOrder route: true exactly when
!items, !Array.isArray(items) or items.length === 0 holds. -/
def itemsFieldBad : ItemsField → Bool
  | .absent => true
  | .nonArray => true
  | .arr [] => true
  | .arr (_ :: _) => false

/-- Orders.create with UserId only, inside the transaction: billno
from the sequence, date defaulting to now; the status false default
mentioned in server.js is kept only when a status column is declared
on the model. -/
def mkOrder (store : Store) (uid : Nat) (now : Int) : Order :=
  { billno := store.nextBillno, date := now, userId := uid,
    status := if "status" ∈ ordersAttributes then some false else none }

/-- OrderItems.bulkCreate: assign consecutive ids starting at the
item sequence value and link every row to the given billno, in input
order. -/
def assignIds (firstId : Nat) (billno : Nat) : List NewItemData → List OrderItem
  | [] => []
  | d :: ds =>
      { id := firstId, category := d.category, color := d.color,
        quantity := d.quantity, orderBillno := billno } :: assignIds (firstId + 1) billno ds

/-- Response of the createOrder route. -/
inductive CreateResp where
  | badRequest (msg : String)
  | serverError (msg : String)
  | created (order : Order) (items : List OrderItem)
deriving Repr, DecidableEq

/-- HTTP status code of a createOrder response. -/
def CreateResp.statusCode : CreateResp → Nat
  | .badRequest _ => 400
  | .serverError _ => 500
  | .created _ _ => 201

/-- POST /api/orders.  A transaction is opened; a missing, non-array
or empty items field rolls back and answers 400; an item-validation
throw or a persistence failure is caught, rolls back and answers 500;
otherwise the Order row and the item rows are committed and the
response carries the order fetched back by primary key together with
the included items of that billno from the committed store. -/
def createOrder (store : Store) (uid : Nat) (items : ItemsField) (now : Int)
    (dbOk : Bool) : CreateResp × Store :=
  match items with
  | .absent => (.badRequest "Request must include a non-empty items array", store)
  | .nonArray => (.badRequest "Request must include a non-empty items array", store)
  | .arr [] => (.badRequest "Request must include a non-empty items array", store)
  | .arr (it :: rest) =>
      let order := mkOrder store uid now
      match validateItems (it :: rest) with
      | .error msg => (.serverError msg, store)
      | .ok ds =>
          if dbOk then
            let newItems := assignIds store.nextItemId order.billno ds
            let committed : Store :=
              { store with
                orders := store.orders ++ [order],
                items := store.items ++ newItems,
                nextBillno := store.nextBillno + 1,
                nextItemId := store.nextItemId + newItems.length }
            (.created order (committed.items.filter
                (fun x => x.orderBillno == order.billno)), committed)
          else
            (.serverError "Failed to create order", store)

/-! ## Listing orders (GET /api/orders) -/

/-- The where object built by the listing route: owner filter plus an
optional inclusive date window. -/
structure WhereClause where
  userId : Nat
  dateRange : Option (Int × Int)
deriving Repr, DecidableEq

/-- Row predicate of a where clause. -/
def matchesWhere (w : WhereClause) (o : Order) : Bool :=
  o.userId == w.userId &&
    (match w.dateRange with
     | none => true
     | some (lo, hi) => decide (lo ≤ o.date) && decide (o.date ≤ hi))

/-- Ordering used by date DESC result sorting: earlier rows have the
later (or equal) timestamp. -/
def dateDesc (a b : Order) : Prop := b.date ≤ a.date

instance : DecidableRel dateDesc :=
  fun a b => inferInstanceAs (Decidable (b.date ≤ a.date))

instance : IsTotal Order dateDesc :=
  ⟨fun a b => le_total b.date a.date⟩

instance : IsTrans Order dateDesc :=
  ⟨fun _ _ _ hab hbc => le_trans hbc hab⟩

/-- The include of OrderItems on an order: all item rows carrying its
billno, in table order. -/
def itemsOf (store : Store) (o : Order) : List OrderItem :=
  store.items.filter (fun x => x.orderBillno == o.billno)

/-- Orders.findAll with a where clause and date DESC ordering. -/
def findAllOrders (store : Store) (w : WhereClause) : List Order :=
  List.insertionSort dateDesc (store.orders.filter (matchesWhere w))

/-- Milliseconds per UTC day. -/
def msPerDay : Int := 86400000

/-- Epoch milliseconds of T00:00:00.000Z of calendar day d. -/
def dayStartMs (d : Nat) : Int := (d : Int) * msPerDay

/-- Epoch milliseconds of T23:59:59.999Z of calendar day d. -/
def dayEndMs (d : Nat) : Int := dayStartMs d + 86399999

/-- The where clause of the listing route: the date window is added
only when both query parameters are present (the startDate and
endDate truthiness test of server.js; an absent parameter is none
here, and an empty string is equally falsy in the source). -/
def buildWhere (uid : Nat) (sd ed : Option Nat) : WhereClause :=
  match sd, ed with
  | some s, some e => { userId := uid, dateRange := some (dayStartMs s, dayEndMs e) }
  | _, _ => { userId := uid, dateRange := none }

/-- GET /api/orders: the user's orders under the optional date
window, newest first, each with its included items. -/
def listOrders (store : Store) (uid : Nat) (sd ed : Option Nat) :
    List (Order × List OrderItem) :=
  (findAllOrders store (buildWhere uid sd ed)).map (fun o => (o, itemsOf store o))

/-! ## Marking delivered (PUT /api/admin/orders/:billno/deliver) -/

/-- Response of the deliver route. -/
inductive DeliverResp where
  | notFound
  | delivered (billno : Nat)
deriving Repr, DecidableEq

/-- Orders.findByPk. -/
def findOrderByPk (store : Store) (billno : Nat) : Option Order :=
  store.orders.find? (fun o => o.billno == billno)

/-- The effect of order.status = true followed by order.save() on
the stored row: save persists declared attributes only, so the
status assignment reaches the row exactly when a status column is
declared on the Orders model. -/
def saveDeliveredRow (o : Order) : Order :=
  { o with status := if "status" ∈ ordersAttributes then some true else o.status }

/-- PUT /api/admin/orders/:billno/deliver: 404 when the billno is
unknown, otherwise answer 200 after the save. -/
def markDelivered (store : Store) (billno : Nat) : DeliverResp × Store :=
  match findOrderByPk store billno with
  | none => (.notFound, store)
  | some _ =>
      (.delivered billno,
       { store with
         orders := store.orders.map
           (fun o => if o.billno == billno then saveDeliveredRow o else o) })

/-! ## Admin stats (GET /api/admin/stats) -/

/-- Response of the stats route. -/
inductive StatsResp where
  | ok (userCount recentOrderCount : Nat)
  | serverError
deriving Repr, DecidableEq

/-- Users.count with a where clause on authority: the generated SQL
names the authority column, so the query succeeds exactly when that
column is declared on the Users model; otherwise the database
rejects it and the count call throws. -/
def usersCountByAuthorityUSER (store : Store) : Except String Nat :=
  if "authority" ∈ usersAttributes then
    .ok ((store.users.filter (fun u => u.authority == some "USER")).length)
  else
    .error "column Users.authority does not exist"

/-- GET /api/admin/stats.  The route first counts users by authority
and then counts orders with date at least oneMonthAgo, the current
time with setMonth(getMonth() - 1) applied, passed here as the
already-computed cutoff; any throw is caught and answered 500. -/
def stats (store : Store) (oneMonthAgo : Int) : StatsResp :=
  match usersCountByAuthorityUSER store with
  | .error _ => .serverError
  | .ok n =>
      .ok n ((store.orders.filter (fun o => decide (oneMonthAgo ≤ o.date))).length)

/-! ## Authentication and admin gate middleware -/

/-- The Authorization header as the protect middleware sees it:
either no usable Bearer header, or a bearer token. -/
inductive AuthHeader where
  | missing
  | bearer (token : String)
deriving Repr, DecidableEq

/-- jwt.verify against the set of currently valid signed tokens,
given as an association of token text to the user id it binds; an
unknown token throws, modelled as none. -/
def jwtVerify (sessions : List (String × Nat)) (t : String) : Option Nat :=
  (sessions.find? (fun p => p.1 == t)).map (fun p => p.2)

/-- Users.findByPk. -/
def findUserByPk (store : Store) (uid : Nat) : Option User :=
  store.users.find? (fun u => u.id == uid)

/-- The protect middleware: 401 without a Bearer header, 401 when
verification throws, 401 when the bound user no longer exists,
otherwise the authenticated user is attached to the request. -/
def protect (store : Store) (sessions : List (String × Nat)) (h : AuthHeader) :
    Except Nat User :=
  match h with
  | .missing => .error 401
  | .bearer t =>
      match jwtVerify sessions t with
      | none => .error 401
      | some uid =>
          match findUserByPk store uid with
          | none => .error 401
          | some u => .ok u

/-- The isAdmin middleware test: req.user.authority === ADMIN. -/
def isAdmin (u : User) : Bool := u.authority == some "ADMIN"

/-- The admin router pipeline (adminRouter.use(protect, isAdmin)
followed by a handler): an error status from protect is final,
otherwise a non-admin user is answered 403, otherwise the handler
runs on the authenticated user. -/
def adminGate {α : Type} (store : Store) (sessions : List (String × Nat))
    (h : AuthHeader) (handler : User → α) : Except Nat α :=
  match protect store sessions h with
  | .error c => .error c
  | .ok u => if isAdmin u then .ok (handler u) else .error 403

/-! ## Concrete fixtures used by counterexamples and witnesses -/

/-- A stored user, with authority none as every row written by the
signup route has (usersCreateRow filters the undeclared column). -/
def u1 : User :=
  { id := 1, username := "alice", phone := "555-1", password := "hash",
    authority := none }

/-- A store with one user and no orders. -/
def st0 : Store :=
  { users := [u1], orders := [], items := [], nextBillno := 1, nextItemId := 1 }

/-- A stored order of user 1. -/
def o1 : Order := { billno := 1, date := 100, userId := 1, status := none }

/-- A store with one user and one order. -/
def st1 : Store :=
  { users := [u1], orders := [o1], items := [], nextBillno := 2, nextItemId := 1 }

/-- An item input with a fractional quantity. -/
def itemFrac : ItemInput :=
  { category := some "shirt", color := some "red", quantity := some "2.9" }

/-- An item input missing its color. -/
def itemNoColor : ItemInput :=
  { category := some "shirt", color := none, quantity := some "2" }

/-- A fully valid item input. -/
def itemGood : ItemInput :=
  { category := some "shirt", color := some "blue", quantity := some "2" }

/-! ## Helper lemmas -/

theorem validateItems_ok_length {l : List ItemInput} {ds : List NewItemData}
    (h : validateItems l = Except.ok ds) : ds.length = l.length := by
  induction l generalizing ds with
  | nil =>
      simp only [validateItems, Except.ok.injEq] at h
      subst h; rfl
  | cons it rest ih =>
      unfold validateItems at h
      cases hv : validateItem it with
      | error e => rw [hv] at h; exact absurd h (by simp)
      | ok d =>
          rw [hv] at h
          cases hr : validateItems rest with
          | error e => rw [hr] at h; exact absurd h (by simp)
          | ok ds2 =>
              rw [hr] at h
              simp only [Except.ok.injEq] at h
              subst h
              simp [ih hr]

theorem validateItem_ok_pos {it : ItemInput} {d : NewItemData}
    (h : validateItem it = Except.ok d) : 0 < d.quantity := by
  unfold validateItem at h
  by_cases hf : (falsyField it.category || falsyField it.color ||
      falsyField it.quantity) = true
  · rw [if_pos hf] at h; exact absurd h (by simp)
  · rw [if_neg hf] at h
    cases hq : jsParseInt (it.quantity.getD "") with
    | none => rw [hq] at h; exact absurd h (by simp)
    | some q =>
        rw [hq] at h
        dsimp only at h
        by_cases hle : q ≤ 0
        · rw [if_pos hle] at h; exact absurd h (by simp)
        · rw [if_neg hle] at h
          injection h with h2
          rw [← h2]
          exact lt_of_not_le hle

theorem validateItems_ok_pos {l : List ItemInput} {ds : List NewItemData}
    (h : validateItems l = Except.ok ds) : ∀ d ∈ ds, 0 < d.quantity := by
  induction l generalizing ds with
  | nil =>
      simp only [validateItems, Except.ok.injEq] at h
      subst h; intro d hd; cases hd
  | cons it rest ih =>
      unfold validateItems at h
      cases hv : validateItem it with
      | error e => rw [hv] at h; exact absurd h (by simp)
      | ok d0 =>
          rw [hv] at h
          cases hr : validateItems rest with
          | error e => rw [hr] at h; exact absurd h (by simp)
          | ok ds2 =>
              rw [hr] at h
              simp only [Except.ok.injEq] at h
              subst h
              intro d hd
              rcases List.mem_cons.mp hd with rfl | hmem
              · exact validateItem_ok_pos hv
              · exact ih hr d hmem

theorem assignIds_length (i b : Nat) (ds : List NewItemData) :
    (assignIds i b ds).length = ds.length := by
  induction ds generalizing i with
  | nil => rfl
  | cons d ds ih => simp [assignIds, ih]

theorem assignIds_billno (i b : Nat) (ds : List NewItemData) :
    ∀ x ∈ assignIds i b ds, x.orderBillno = b := by
  induction ds generalizing i with
  | nil => intro x hx; cases hx
  | cons d ds ih =>
      intro x hx
      rcases List.mem_cons.mp hx with rfl | hmem
      · rfl
      · exact ih (i + 1) x hmem

theorem assignIds_mem_quantity {i b : Nat} {ds : List NewItemData} {x : OrderItem}
    (hx : x ∈ assignIds i b ds) : ∃ d ∈ ds, x.quantity = d.quantity := by
  induction ds generalizing i with
  | nil => cases hx
  | cons d ds ih =>
      rcases List.mem_cons.mp hx with rfl | hmem
      · exact ⟨d, List.mem_cons_self d ds, rfl⟩
      · rcases ih hmem with ⟨d2, hd2, hq⟩
        exact ⟨d2, List.mem_cons_of_mem d hd2, hq⟩

/-! ## Claim theorems -/

/-- Claim C1: whenever a createOrder request has a missing, non-array
or empty items field, or some item fails validation, or persistence
fails, the whole operation is rolled back: the store after the error
response equals the store before, so zero new Order rows and zero new
Item rows are visible, and the response is an error (400 or 500). -/
theorem createOrder_error_rolls_back (store : Store) (uid : Nat) (f : ItemsField)
    (now : Int) (dbOk : Bool)
    (h : itemsFieldBad f = true ∨
      (∃ l e, f = ItemsField.arr l ∧ validateItems l = Except.error e) ∨
      dbOk = false) :
    (createOrder store uid f now dbOk).2 = store ∧
      ((createOrder store uid f now dbOk).1.statusCode = 400 ∨
       (createOrder store uid f now dbOk).1.statusCode = 500) := by
  rcases h with hbad | ⟨l, e, rfl, hval⟩ | rfl
  · cases f with
    | absent => exact ⟨rfl, Or.inl rfl⟩
    | nonArray => exact ⟨rfl, Or.inl rfl⟩
    | arr l =>
        cases l with
        | nil => exact ⟨rfl, Or.inl rfl⟩
        | cons a as => simp [itemsFieldBad] at hbad
  · cases l with
    | nil => exact ⟨rfl, Or.inl rfl⟩
    | cons a as =>
        refine ⟨?_, Or.inr ?_⟩ <;> simp [createOrder, hval, CreateResp.statusCode]
  · cases f with
    | absent => exact ⟨rfl, Or.inl rfl⟩
    | nonArray => exact ⟨rfl, Or.inl rfl⟩
    | arr l =>
        cases l with
        | nil => exact ⟨rfl, Or.inl rfl⟩
        | cons a as =>
            cases hv : validateItems (a :: as) with
            | error e => refine ⟨?_, Or.inr ?_⟩ <;> simp [createOrder, hv, CreateResp.statusCode]
            | ok ds => refine ⟨?_, Or.inr ?_⟩ <;> simp [createOrder, hv, CreateResp.statusCode]

/-- Witness for C1 at a concrete input: an absent items field on the
one-user store answers 400 and leaves the store unchanged. -/
theorem createOrder_error_rolls_back_witness :
    (createOrder st0 1 ItemsField.absent 0 true).2 = st0 ∧
      ((createOrder st0 1 ItemsField.absent 0 true).1.statusCode = 400 ∨
       (createOrder st0 1 ItemsField.absent 0 true).1.statusCode = 500) :=
  createOrder_error_rolls_back st0 1 ItemsField.absent 0 true (Or.inl (by decide))

/-- Claim C2: a createOrder request with a non-empty list of valid
items commits exactly one new Order owned by the requesting user and
one new Item row per input item, all referencing that Order, and the
response carries the persisted Order with exactly those items in
insertion order. -/
theorem createOrder_success_commits (store : Store) (uid : Nat)
    (l : List ItemInput) (now : Int) (ds : List NewItemData)
    (hne : l ≠ [])
    (hds : validateItems l = Except.ok ds)
    (hfresh : ∀ x ∈ store.items, x.orderBillno ≠ store.nextBillno) :
    createOrder store uid (ItemsField.arr l) now true =
      (CreateResp.created (mkOrder store uid now)
          (assignIds store.nextItemId store.nextBillno ds),
       { store with
         orders := store.orders ++ [mkOrder store uid now],
         items := store.items ++ assignIds store.nextItemId store.nextBillno ds,
         nextBillno := store.nextBillno + 1,
         nextItemId := store.nextItemId +
           (assignIds store.nextItemId store.nextBillno ds).length }) ∧
    (assignIds store.nextItemId store.nextBillno ds).length = l.length ∧
    (∀ x ∈ assignIds store.nextItemId store.nextBillno ds,
        x.orderBillno = (mkOrder store uid now).billno) ∧
    (mkOrder store uid now).userId = uid := by
  cases l with
  | nil => exact absurd rfl hne
  | cons a as =>
      have hfil : (store.items ++ assignIds store.nextItemId store.nextBillno ds).filter
          (fun x => x.orderBillno == store.nextBillno) =
          assignIds store.nextItemId store.nextBillno ds := by
        rw [List.filter_append]
        have h1 : store.items.filter (fun x => x.orderBillno == store.nextBillno) = [] := by
          rw [List.filter_eq_nil_iff]
          intro x hx
          simp [hfresh x hx]
        have h2 : (assignIds store.nextItemId store.nextBillno ds).filter
            (fun x => x.orderBillno == store.nextBillno) =
            assignIds store.nextItemId store.nextBillno ds := by
          rw [List.filter_eq_self]
          intro x hx
          simp [assignIds_billno store.nextItemId store.nextBillno ds x hx]
        rw [h1, h2, List.nil_append]
      refine ⟨?_, ?_, ?_, rfl⟩
      · simp only [createOrder, hds]
        simp [mkOrder, hfil]
      · rw [assignIds_length]
        exact validateItems_ok_length hds
      · exact assignIds_billno store.nextItemId store.nextBillno ds

/-- Witness for C2 at a concrete input: one valid item on the
one-user store commits one order and one item. -/
theorem createOrder_success_commits_witness :
    createOrder st0 1 (ItemsField.arr [itemGood]) 0 true =
      (CreateResp.created (mkOrder st0 1 0)
          (assignIds st0.nextItemId st0.nextBillno
            [{ category := "shirt", color := "blue", quantity := 2 }]),
       { st0 with
         orders := st0.orders ++ [mkOrder st0 1 0],
         items := st0.items ++ assignIds st0.nextItemId st0.nextBillno
           [{ category := "shirt", color := "blue", quantity := 2 }],
         nextBillno := st0.nextBillno + 1,
         nextItemId := st0.nextItemId +
           (assignIds st0.nextItemId st0.nextBillno
             [{ category := "shirt", color := "blue", quantity := 2 }]).length }) ∧
    (assignIds st0.nextItemId st0.nextBillno
      [{ category := "shirt", color := "blue", quantity := 2 }]).length =
      [itemGood].length ∧
    (∀ x ∈ assignIds st0.nextItemId st0.nextBillno
        [{ category := "shirt", color := "blue", quantity := 2 }],
        x.orderBillno = (mkOrder st0 1 0).billno) ∧
    (mkOrder st0 1 0).userId = 1 :=
  createOrder_success_commits st0 1 [itemGood] 0
    [{ category := "shirt", color := "blue", quantity := 2 }]
    (by decide) (by decide) (by decide)

/-- Claim C3 counterexample: a request with an item missing its color
is answered 500 by the catch-all handler, not 400 as the claim
states. -/
theorem createOrder_invalid_item_answers_500_not_400 :
    (createOrder st0 1 (ItemsField.arr [itemNoColor]) 0 true).1.statusCode = 500 ∧
    ¬ (createOrder st0 1 (ItemsField.arr [itemNoColor]) 0 true).1.statusCode = 400 := by
  decide

/-- Claim C3 as amended: when any item of the array fails validation
(absent or empty category, color or quantity, or a quantity whose
parseInt is NaN or non-positive), the thrown validation error is
caught by the generic catch block, which rolls the transaction back
and answers 500 with the error message; only a missing, non-array or
empty items field is answered 400. -/
theorem createOrder_invalid_item_serverError (store : Store) (uid : Nat)
    (l : List ItemInput) (now : Int) (dbOk : Bool) (e : String)
    (hval : validateItems l = Except.error e) :
    createOrder store uid (ItemsField.arr l) now dbOk =
      (CreateResp.serverError e, store) := by
  cases l with
  | nil => exact absurd hval (by simp [validateItems])
  | cons a as => simp [createOrder, hval]

/-- Witness for amended C3 at a concrete input: the item missing its
color is answered 500 with the per-item guard message. -/
theorem createOrder_invalid_item_serverError_witness :
    createOrder st0 1 (ItemsField.arr [itemNoColor]) 0 true =
      (CreateResp.serverError "Each item must include category, color, and quantity.",
       st0) :=
  createOrder_invalid_item_serverError st0 1 [itemNoColor] 0 true
    "Each item must include category, color, and quantity." (by decide)

/-- Claim C4, code-bug evidence: the Orders model declares no status
column at all, so a created Order row carries no boolean delivery
status (its phantom status attribute is none, never false), although
server.js is written against a status default of false. -/
theorem orders_schema_lacks_status_column :
    "status" ∉ ordersAttributes ∧
    ∀ store uid now, (mkOrder store uid now).status = none := by
  refine ⟨by decide, fun store uid now => ?_⟩
  show (if "status" ∈ ordersAttributes then some false else none) = none
  exact if_neg (by decide)

/-- Claim C5, code-bug evidence: on the one-order store, the deliver
route answers 404 for an unknown billno and 200 for the stored one,
but the save persists no change at all (the store is returned
unchanged, and no row ever carries status true), because the Orders
model declares no status column. -/
theorem markDelivered_persists_no_status :
    (markDelivered st1 5).1 = DeliverResp.notFound ∧
    markDelivered st1 1 = (DeliverResp.delivered 1, st1) ∧
    markDelivered (markDelivered st1 1).2 1 = (DeliverResp.delivered 1, st1) ∧
    (∀ o ∈ (markDelivered st1 1).2.orders, o.status ≠ some true) ∧
    "status" ∉ ordersAttributes := by
  decide

/-- Claim C6, code-bug evidence: the stats route always answers 500,
for every store and every computed cutoff, because the Users model
declares no authority column and the users count query therefore
throws. -/
theorem stats_always_serverError (store : Store) (oneMonthAgo : Int) :
    stats store oneMonthAgo = StatsResp.serverError := by
  have h : usersCountByAuthorityUSER store =
      Except.error "column Users.authority does not exist" := by
    unfold usersCountByAuthorityUSER
    exact if_neg (by decide)
  unfold stats
  rw [h]

/-- Membership in the listing response, for any where clause the
route can build: a pair is returned exactly when its order row is
stored, matches the clause, and is paired with its included items. -/
theorem mem_listOrders (store : Store) (uid : Nat) (sd ed : Option Nat)
    (o : Order) (its : List OrderItem) :
    (o, its) ∈ listOrders store uid sd ed ↔
      (o ∈ store.orders ∧ matchesWhere (buildWhere uid sd ed) o = true ∧
       its = itemsOf store o) := by
  unfold listOrders findAllOrders
  constructor
  · intro h
    rcases List.mem_map.mp h with ⟨a, ha, hpair⟩
    injection hpair with h1 h2
    subst h1
    have ha2 : a ∈ store.orders.filter (matchesWhere (buildWhere uid sd ed)) :=
      (List.perm_insertionSort dateDesc _).subset ha
    rcases List.mem_filter.mp ha2 with ⟨ho, hw⟩
    exact ⟨ho, hw, h2.symm⟩
  · rintro ⟨ho, hw, rfl⟩
    refine List.mem_map.mpr ⟨o, ?_, rfl⟩
    exact ((List.perm_insertionSort dateDesc _).mem_iff).mpr
      (List.mem_filter.mpr ⟨ho, hw⟩)

/-- Claim C7: with both startDate and endDate supplied, the listing
route returns exactly the requesting user's orders whose timestamp
lies between the start of the first day and the last millisecond of
the last day, both inclusive, each paired with its items, and the
rows are sorted newest first by timestamp. -/
theorem listOrders_range_inclusive (store : Store) (uid s e : Nat) :
    (∀ o its, (o, its) ∈ listOrders store uid (some s) (some e) ↔
       (o ∈ store.orders ∧ o.userId = uid ∧ dayStartMs s ≤ o.date ∧
        o.date ≤ dayEndMs e ∧ its = itemsOf store o)) ∧
    List.Sorted dateDesc ((listOrders store uid (some s) (some e)).map Prod.fst) := by
  constructor
  · intro o its
    rw [mem_listOrders]
    simp only [buildWhere, matchesWhere, Bool.and_eq_true, beq_iff_eq,
      decide_eq_true_eq]
    tauto
  · have hmap : (listOrders store uid (some s) (some e)).map Prod.fst =
        List.insertionSort dateDesc
          (store.orders.filter (matchesWhere (buildWhere uid (some s) (some e)))) := by
      unfold listOrders findAllOrders
      rw [List.map_map]
      have hcomp : (Prod.fst ∘ fun o : Order => (o, itemsOf store o)) = id := rfl
      rw [hcomp, List.map_id]
    rw [hmap]
    exact List.sorted_insertionSort dateDesc _

/-- Witness for C7 at a concrete input: the stored order of user 1,
dated inside day 0, is returned for the range day 0 to day 0. -/
theorem listOrders_range_inclusive_witness :
    (o1, ([] : List OrderItem)) ∈ listOrders st1 1 (some 0) (some 0) :=
  ((listOrders_range_inclusive st1 1 0 0).1 o1 []).mpr (by decide)

/-- Claim C10: when exactly one of startDate and endDate is supplied,
the date filter is not applied at all and the listing returns every
order owned by the requesting user, each with its items. -/
theorem listOrders_single_bound_ignored (store : Store) (uid s e : Nat) :
    (∀ o its, (o, its) ∈ listOrders store uid (some s) none ↔
       (o ∈ store.orders ∧ o.userId = uid ∧ its = itemsOf store o)) ∧
    (∀ o its, (o, its) ∈ listOrders store uid none (some e) ↔
       (o ∈ store.orders ∧ o.userId = uid ∧ its = itemsOf store o)) := by
  constructor
  · intro o its
    rw [mem_listOrders]
    have hb : buildWhere uid (some s) none =
        { userId := uid, dateRange := none } := rfl
    rw [hb]
    simp only [matchesWhere, Bool.and_eq_true, beq_iff_eq, Bool.and_true]
  · intro o its
    rw [mem_listOrders]
    have hb : buildWhere uid none (some e) =
        { userId := uid, dateRange := none } := rfl
    rw [hb]
    simp only [matchesWhere, Bool.and_eq_true, beq_iff_eq, Bool.and_true]

/-- Witness for C10 at a concrete input: a lone startDate far in the
future is ignored and the stored order is still returned. -/
theorem listOrders_single_bound_ignored_witness :
    (o1, ([] : List OrderItem)) ∈ listOrders st1 1 (some 40000) none :=
  ((listOrders_single_bound_ignored st1 1 40000 0).1 o1 []).mpr (by decide)

/-- Claim C8: on the admin pipeline, a request without a valid
authentication token (no bearer header, unverifiable token, or a
token bound to no stored user) is answered 401; an authenticated
request whose user does not have authority ADMIN is answered 403;
and a handler result is produced only when authentication passed and
the user is an admin. -/
theorem adminGate_auth_and_role {α : Type} (store : Store)
    (sessions : List (String × Nat)) (h : AuthHeader) (handler : User → α) :
    (¬ (∃ t uid u, h = AuthHeader.bearer t ∧ jwtVerify sessions t = some uid ∧
          findUserByPk store uid = some u) →
       adminGate store sessions h handler = Except.error 401) ∧
    (∀ t uid u, h = AuthHeader.bearer t → jwtVerify sessions t = some uid →
       findUserByPk store uid = some u → u.authority ≠ some "ADMIN" →
       adminGate store sessions h handler = Except.error 403) ∧
    (∀ r, adminGate store sessions h handler = Except.ok r →
       ∃ u, protect store sessions h = Except.ok u ∧ isAdmin u = true ∧
         r = handler u) := by
  refine ⟨?_, ?_, ?_⟩
  · intro hno
    cases h with
    | missing => rfl
    | bearer t =>
        cases hv : jwtVerify sessions t with
        | none => simp [adminGate, protect, hv]
        | some uid =>
            cases hu : findUserByPk store uid with
            | none => simp [adminGate, protect, hv, hu]
            | some u => exact absurd ⟨t, uid, u, rfl, hv, hu⟩ hno
  · rintro t uid u rfl hv hu hna
    have hia : isAdmin u = false := by
      unfold isAdmin
      simp [hna]
    simp [adminGate, protect, hv, hu, hia]
  · intro r hr
    unfold adminGate at hr
    cases hp : protect store sessions h with
    | error c => rw [hp] at hr; exact absurd hr (by simp)
    | ok u =>
        rw [hp] at hr
        dsimp only at hr
        by_cases hia : isAdmin u = true
        · rw [if_pos hia] at hr
          injection hr with hr2
          exact ⟨u, rfl, hia, hr2.symm⟩
        · rw [if_neg hia] at hr
          exact absurd hr (by simp)

/-- Witness for C8 at concrete inputs: with the one-user store (the
stored user has no authority attribute, as every signup-created row
has), a valid token is answered 403 and a missing header 401. -/
theorem adminGate_auth_and_role_witness :
    adminGate st0 [("tok", 1)] (AuthHeader.bearer "tok") (fun _ => (0 : Nat)) =
      Except.error 403 ∧
    adminGate st0 [("tok", 1)] AuthHeader.missing (fun _ => (0 : Nat)) =
      Except.error 401 := by
  constructor
  · exact (adminGate_auth_and_role st0 [("tok", 1)] (AuthHeader.bearer "tok")
      (fun _ => (0 : Nat))).2.1 "tok" 1 u1 rfl (by decide) (by decide) (by decide)
  · exact (adminGate_auth_and_role st0 [("tok", 1)] AuthHeader.missing
      (fun _ => (0 : Nat))).1
      (fun ⟨t, uid, u, ht, _, _⟩ => AuthHeader.noConfusion ht)

/-- Claim C9 counterexample: an item with the fractional quantity 2.9
does not make creation fail; parseInt truncates it to 2, the request
is answered 201, and an item row with quantity 2 is persisted. -/
theorem createOrder_fractional_quantity_accepted :
    (createOrder st0 1 (ItemsField.arr [itemFrac]) 0 true).1.statusCode = 201 ∧
    ((createOrder st0 1 (ItemsField.arr [itemFrac]) 0 true).2.items.map
      OrderItem.quantity) = [2] := by
  decide

/-- Claim C9 as amended: every persisted Item row has a positive
integer quantity, and creation fails when an item's quantity is
absent or falsy or parseInt of it is NaN or non-positive; but a
fractional value such as 2.9 is truncated by parseInt to its integer
part and accepted rather than rejected. -/
theorem createOrder_preserves_positive_quantities (store : Store) (uid : Nat)
    (f : ItemsField) (now : Int) (dbOk : Bool)
    (hinv : ∀ x ∈ store.items, 0 < x.quantity) :
    ∀ x ∈ (createOrder store uid f now dbOk).2.items, 0 < x.quantity := by
  cases f with
  | absent => exact hinv
  | nonArray => exact hinv
  | arr l =>
      cases l with
      | nil => exact hinv
      | cons a as =>
          cases hv : validateItems (a :: as) with
          | error e =>
              simp only [createOrder, hv]
              exact hinv
          | ok ds =>
              cases dbOk with
              | false =>
                  simp only [createOrder, hv]
                  exact hinv
              | true =>
                  simp only [createOrder, hv]
                  intro x hx
                  rcases List.mem_append.mp hx with hold | hnew
                  · exact hinv x hold
                  · rcases assignIds_mem_quantity hnew with ⟨d, hd, hq⟩
                    rw [hq]
                    exact validateItems_ok_pos hv d hd

/-- Witness for amended C9 at a concrete input: the one item row the
valid creation persists into the previously empty item table has a
positive quantity. -/
theorem createOrder_preserves_positive_quantities_witness :
    0 < ({ id := 1, category := "shirt", color := "blue", quantity := 2,
           orderBillno := 1 } : OrderItem).quantity :=
  createOrder_preserves_positive_quantities st0 1 (ItemsField.arr [itemGood]) 0 true
    (by decide)
    { id := 1, category := "shirt", color := "blue", quantity := 2, orderBillno := 1 }
    (by decide)

end Pgp
